import Mathlib

/-!
Verification of the CPython perf-trampoline subsystem
(`Python/perf_trampoline.c` and `Python/perf_jit_trampoline.c`)
against its natural-language specification.

The C code is shallowly embedded: pure helpers become Lean functions on
`Nat`/`Int` (machine arithmetic is made explicit with `% 2^w` where wrap
can occur), the global mutable state of the subsystem becomes explicit
state records threaded through step functions, and system calls that can
fail (`mmap`, `mprotect`, allocation) become oracle parameters describing
their outcome.
-/

namespace Perf

/-- Embedding of `round_up` (identical in both source files).  The C
function computes with `int64_t` values and C truncated division
(`value % multiple` has the sign of `value`), which is `Int.tmod`.
Signed overflow is undefined behaviour in C and is not modelled; the
function is treated on unbounded integers. -/
def round_up (value multiple : Int) : Int :=
  if multiple = 0 then
    -- Avoid division by zero
    value
  else if value.tmod multiple = 0 then
    -- Value is already a multiple of 'multiple'
    value
  else
    -- Add the difference to the next multiple to the value
    value + (multiple - value.tmod multiple)

/-- Embedding of `elfctx_append_uleb128` from `perf_jit_trampoline.c`,
returning the list of bytes appended to the buffer.  The C loop is
`for (; v >= 0x80; v >>= 7) *p++ = (v & 0x7f) | 0x80;` followed by
`*p++ = v;` on a `uint32_t` argument, modelled on `Nat`. -/
def elfctx_append_uleb128 (v : Nat) : List Nat :=
  if h : v ≥ 0x80 then
    (v % 0x80 + 0x80) :: elfctx_append_uleb128 (v / 0x80)
  else
    [v]
termination_by v
decreasing_by
  exact Nat.div_lt_self (by omega) (by omega)

/-- Embedding of `elfctx_append_sleb128` from `perf_jit_trampoline.c`.
The argument is an `int32_t`; the loop guard `(uint32_t)(v + 0x40) >= 0x80`
is modelled as `(v + 0x40) % 2^32 ≥ 0x80` (two's-complement wrap of the
`int32` addition followed by the unsigned reinterpretation), the byte
`(v & 0x7f) | 0x80` as `v % 0x80 + 0x80` (low seven bits of the
two's-complement representation), and the arithmetic shift `v >>= 7`
as floor division by `0x80`. -/
def elfctx_append_sleb128 (v : Int) : List Nat :=
  if h : (v + 0x40) % (2 ^ 32) ≥ 0x80 then
    ((v % 0x80).toNat + 0x80) :: elfctx_append_sleb128 (v / 0x80)
  else
    [(v % 0x80).toNat]
termination_by v.natAbs
decreasing_by
  omega

/-! ### State model of `Python/perf_trampoline.c`

The process-wide globals `perf_status`, `perf_code_arena`,
`trampoline_api`, `persist_after_fork` and `perf_trampoline_type`
become an explicit `RuntimeState` record.  The linked list of arenas
(`perf_code_arena` with `prev` pointers) becomes a `List CodeArena`
whose head is the current arena.  `mmap`, `mprotect` and
`PyMem_RawCalloc` outcomes are supplied by a `SysOracle`.  Arena byte
contents (the replicated trampoline template) are not modelled; no
settled claim depends on them.  `size_t` subtraction of `size_left` is
modelled with explicit wrap modulo `2^64`. -/

/-- Embedding of `enum perf_status` (`PERF_STATUS_FAILED`,
`PERF_STATUS_NO_INIT`, `PERF_STATUS_OK`). -/
inductive PerfStatus
  | no_init
  | ok
  | failed
deriving DecidableEq, Repr

/-- Embedding of `enum perf_trampoline_type`. -/
inductive TrampolineType
  | unset
  | map
  | jitdump
deriving DecidableEq, Repr

/-- Embedding of `struct code_arena_st`.  Addresses and sizes are `Nat`
(the C fields are `char*` and `size_t`); the `prev` pointer is
represented by the position of the arena in the state's list. -/
structure CodeArena where
  start_addr : Nat
  current_addr : Nat
  size : Nat
  size_left : Nat
  code_size : Nat
deriving DecidableEq, Repr

/-- Explicit record for the `_PyRuntime.ceval.perf` globals used by
`perf_trampoline.c`.  `hook_installed` models
`tstate->interp->eval_frame == py_trampoline_evaluator`; `callbacks`
records which sink's callbacks are stored in `trampoline_api`
(they survive `_PyPerfTrampoline_Fini`, unlike `perf_trampoline_type`). -/
structure RuntimeState where
  status : PerfStatus
  arenas : List CodeArena
  code_padding : Nat
  tramp_type : TrampolineType
  callbacks : TrampolineType
  persist_after_fork : Bool
  hook_installed : Bool
deriving DecidableEq, Repr

/-- Outcomes of the system calls made during `new_code_arena`:
the address returned by `mmap` (`none` = `MAP_FAILED`), and whether
`mprotect` and `PyMem_RawCalloc` succeed. -/
structure SysOracle where
  mmap_result : Option Nat
  mprotect_ok : Bool
  calloc_ok : Bool
deriving DecidableEq, Repr

/-- Arena size: `size_t mem_size = 4096 * 16;` in `new_code_arena`. -/
def mem_size : Nat := 4096 * 16

/-- Unsigned 64-bit (`size_t`) subtraction with two's-complement wrap. -/
def sub64 (a b : Nat) : Nat := (2 ^ 64 + a - b % 2 ^ 64) % 2 ^ 64

/-- Slot size computed at every call site:
`round_up(code_size + trampoline_api.code_padding, 16)` (a `size_t`). -/
def slot_size (code_size padding : Nat) : Nat :=
  (round_up ((code_size : Int) + (padding : Int)) 16).toNat

/-- Embedding of `new_code_arena`.  `T` is the template size
`&_Py_trampoline_func_end - &_Py_trampoline_func_start`.  On `mmap`
failure the status is set to `PERF_STATUS_FAILED` and `-1` returned; on
`mprotect` or `PyMem_RawCalloc` failure the mapping is unmapped and `-1`
returned with the status left unchanged; on success a fresh arena record
(`start_addr = current_addr = memory`, `size = size_left = mem_size`,
`code_size = T`) is pushed onto the arena list and `0` returned.  The
`memcpy` replication of the template into the slots only writes arena
bytes, which are not modelled. -/
def new_code_arena (T : Nat) (o : SysOracle) (s : RuntimeState) :
    RuntimeState × Int :=
  match o.mmap_result with
  | none => ({ s with status := .failed }, -1)
  | some memory =>
      if o.mprotect_ok = false then
        (s, -1)
      else if o.calloc_ok = false then
        (s, -1)
      else
        ({ s with arenas :=
            ⟨memory, memory, mem_size, mem_size, T⟩ :: s.arenas }, 0)

/-- Embedding of `code_arena_new_code`: returns `current_addr`, then
advances `current_addr` by the slot size and decrements `size_left` by
it (a `size_t` subtraction). -/
def code_arena_new_code (padding : Nat) (a : CodeArena) : CodeArena × Nat :=
  let total_code_size := slot_size a.code_size padding
  ({ a with
      size_left := sub64 a.size_left total_code_size,
      current_addr := a.current_addr + total_code_size },
   a.current_addr)

/-- Result of `compile_trampoline`: `crash` marks the undefined
behaviour of dereferencing `perf_code_arena` while it is `NULL`,
`fail` is a `NULL` return, `ok addr` a returned trampoline pointer. -/
inductive CompileResult
  | crash
  | fail
  | ok (addr : Nat)
deriving DecidableEq, Repr

/-- Embedding of `compile_trampoline`.  The C function first computes
`round_up(perf_code_arena->code_size + trampoline_api.code_padding, 16)`
and only afterwards tests `perf_code_arena == NULL`; with an empty arena
list this dereferences a null pointer, modelled as `crash`.  With a head
arena present, a new arena is allocated when `size_left <=
total_code_size`, and the slot is carved from the head of the
(possibly extended) arena list. -/
def compile_trampoline (T : Nat) (o : SysOracle) (s : RuntimeState) :
    RuntimeState × CompileResult :=
  match s.arenas with
  | [] => (s, .crash)
  | arena :: rest =>
      let total_code_size := slot_size arena.code_size s.code_padding
      if arena.size_left ≤ total_code_size then
        match new_code_arena T o s with
        | (s', r) =>
            if r = -1 then
              (s', .fail)
            else
              match s'.arenas with
              | [] => (s', .fail)   -- unreachable: success pushed an arena
              | a :: rest' =>
                  let p := code_arena_new_code s'.code_padding a
                  ({ s' with arenas := p.1 :: rest' }, .ok p.2)
      else
        let p := code_arena_new_code s.code_padding arena
        ({ s with arenas := p.1 :: rest }, .ok p.2)

/-- Dispatch-level state: the runtime state plus the per-code-object
extra slot (`_PyCode_GetExtra`/`_PyCode_SetExtra`, indexed here by a
code-object identifier) and the log of sink `write_state` calls
`(code object, trampoline address)`. -/
structure EvalState where
  rt : RuntimeState
  extra : Nat → Option Nat
  writes : List (Nat × Nat)

/-- Result of one dispatch: the value of `_PyEval_EvalFrameDefault`,
the value of calling the trampoline at `addr` (which itself tail-calls
the default evaluator), or the crash from `compile_trampoline`. -/
inductive EvalResult
  | default_eval
  | trampoline (addr : Nat)
  | crash
deriving DecidableEq, Repr

/-- Embedding of `py_trampoline_evaluator` for a frame whose code object
is `co`.  If the status is `FAILED` or `NO_INIT` the default evaluator
runs.  Otherwise a cached trampoline from the extra slot is used; if
none is cached, `compile_trampoline` runs, and on success the sink's
`write_state` is called and the address stored in the extra slot
(`_PyCode_SetExtra` is modelled as succeeding; its return value is
ignored by the C code). -/
def py_trampoline_evaluator (T : Nat) (co : Nat) (o : SysOracle)
    (s : EvalState) : EvalState × EvalResult :=
  if s.rt.status = .failed ∨ s.rt.status = .no_init then
    (s, .default_eval)
  else
    match s.extra co with
    | some f => (s, .trampoline f)
    | none =>
        match compile_trampoline T o s.rt with
        | (rt', .crash) => ({ s with rt := rt' }, .crash)
        | (rt', .fail) => ({ s with rt := rt' }, .default_eval)
        | (rt', .ok addr) =>
            ({ rt := rt',
               extra := fun c => if c = co then some addr else s.extra c,
               writes := s.writes ++ [(co, addr)] }, .trampoline addr)

/-- Result of `PyUnstable_PerfTrampoline_CompileCode`: `none` marks the
crash inherited from `compile_trampoline`, `some r` a return value. -/
def CompileCodeResult := Option Int

/-- Embedding of `PyUnstable_PerfTrampoline_CompileCode`.
`set_extra_ok` is the outcome of `_PyCode_SetExtra` (whose return value
this function propagates; on failure the extra slot is unchanged and
`-1` returned).  When a trampoline is already attached the function
returns `0`; when `compile_trampoline` returns `NULL` it returns `0`
without calling the sink or touching the extra slot. -/
def PyUnstable_PerfTrampoline_CompileCode (T : Nat) (co : Nat)
    (o : SysOracle) (set_extra_ok : Bool) (s : EvalState) :
    EvalState × CompileCodeResult :=
  match s.extra co with
  | some _ => (s, some 0)
  | none =>
      match compile_trampoline T o s.rt with
      | (rt', .crash) => ({ s with rt := rt' }, none)
      | (rt', .fail) => ({ s with rt := rt' }, some 0)
      | (rt', .ok addr) =>
          if set_extra_ok then
            ({ rt := rt',
               extra := fun c => if c = co then some addr else s.extra c,
               writes := s.writes ++ [(co, addr)] }, some 0)
          else
            ({ rt := rt', extra := s.extra,
               writes := s.writes ++ [(co, addr)] }, some (-1))

/-- Embedding of `_PyPerfTrampoline_Fini`: a no-op unless the status is
`OK`; otherwise it uninstalls the evaluator hook, frees the sink state,
resets `perf_trampoline_type` to `UNSET` and the status to `NO_INIT`.
Arenas are left allocated (`_PyPerfTrampoline_FreeArenas` is separate). -/
def _PyPerfTrampoline_Fini (s : RuntimeState) : RuntimeState :=
  if s.status ≠ .ok then
    s
  else
    { s with
        hook_installed := false,
        tramp_type := .unset,
        status := .no_init }

/-- Embedding of `_PyPerfTrampoline_Init` (no foreign evaluator hook
installed, `_PyEval_RequestCodeExtraIndex` succeeding).  With
`activate = false` the hook is uninstalled and the status left
`NO_INIT`.  With `activate = true` the hook is installed, a first arena
allocated (failure propagates `-1`), and the installed sink's
`init_state` runs: the perfmap sink sets `code_padding = 0` and type
`MAP`, the jitdump sink sets `code_padding = 0x100` and type `JITDUMP`;
then the status becomes `OK`. -/
def _PyPerfTrampoline_Init (T : Nat) (activate : Bool) (o : SysOracle)
    (s : RuntimeState) : RuntimeState × Int :=
  if activate = false then
    ({ s with hook_installed := false, status := .no_init }, 0)
  else
    let s1 := { s with hook_installed := true }
    match new_code_arena T o s1 with
    | (s2, r) =>
        if r = -1 then
          (s2, -1)
        else
          let s3 :=
            match s2.callbacks with
            | .map => { s2 with code_padding := 0, tramp_type := .map }
            | .jitdump =>
                { s2 with code_padding := 0x100, tramp_type := .jitdump }
            | .unset => s2
          ({ s3 with status := .ok }, 0)

/-- Result of `_PyPerfTrampoline_AfterFork_Child`: `PyStatus_Ok` or
`PyStatus_Error`. -/
inductive ForkStatus
  | ok
  | error
deriving DecidableEq, Repr

/-- Embedding of `_PyPerfTrampoline_AfterFork_Child`.  With
`persist_after_fork` set and a trampoline type other than `MAP`, the
function returns an error immediately, without tearing anything down.
With `persist_after_fork` set and type `MAP`, it tears down and copies
the parent's perf-map file (`copy_ok` is the outcome of
`PyUnstable_CopyPerfMapFile`).  Otherwise it tears down and, if the
trampoline evaluator hook was installed, re-runs
`_PyPerfTrampoline_Init(1)`. -/
def _PyPerfTrampoline_AfterFork_Child (T : Nat) (o : SysOracle)
    (copy_ok : Bool) (s : RuntimeState) : RuntimeState × ForkStatus :=
  if s.persist_after_fork then
    if s.tramp_type ≠ .map then
      (s, .error)
    else
      let s1 := _PyPerfTrampoline_Fini s
      if copy_ok then (s1, .ok) else (s1, .error)
  else
    let was_active := s.hook_installed
    let s1 := _PyPerfTrampoline_Fini s
    if was_active then
      match _PyPerfTrampoline_Init T true o s1 with
      | (s2, _) => (s2, .ok)
    else
      (s1, .ok)

/-- Iterated slot acquisition: the runtime state after `k` successive
calls to `compile_trampoline` (each call's system-call outcomes given
by the same oracle). -/
def acquire_iter (T : Nat) (o : SysOracle) (s : RuntimeState) :
    Nat → RuntimeState
  | 0 => s
  | k + 1 => (compile_trampoline T o (acquire_iter T o s k)).1

/-- Trace of dispatches: each element is a code object together with
the system-call outcomes for that dispatch. -/
def eval_trace (T : Nat) : List (Nat × SysOracle) → EvalState → EvalState
  | [], s => s
  | (co, o) :: tr, s => eval_trace T tr (py_trampoline_evaluator T co o s).1

/-- Number of sink `write_state` calls made for code object `co`. -/
def writesFor (co : Nat) (s : EvalState) : Nat :=
  (s.writes.filter (fun w => w.1 = co)).length

/-- Standard unsigned LEB128 decoder on a byte list (little-endian
seven-bit groups; a byte below `0x80` terminates the value). -/
def uleb128_decode : List Nat → Nat
  | [] => 0
  | b :: bs => if b < 0x80 then b else b % 0x80 + 0x80 * uleb128_decode bs

/-- Standard signed LEB128 decoder on a byte list: the final byte (the
first one below `0x80`) is sign-extended from its seventh bit. -/
def sleb128_decode : List Nat → Int
  | [] => 0
  | b :: bs =>
      if b < 0x80 then
        if 0x40 ≤ b then (b : Int) - 0x80 else (b : Int)
      else
        ((b % 0x80 : Nat) : Int) + 0x80 * sleb128_decode bs

/-! ### Byte-level model of `Python/perf_jit_trampoline.c`

Records are modelled as the exact little-endian byte sequences written
by `perf_map_jit_write_fully`.  The structs (`CodeLoadEvent`,
`CodeUnwindingInfoEvent`, `EhFrameHeader`) have no compiler padding on
the supported ABIs, so their serialization is the concatenation of
their fields.  The DWARF emitter is modelled for x86-64
(`__x86_64__`); the scratch buffer handed to `elf_init_ehframe` is
assumed 8-byte aligned, so the `DWRF_ALIGNNOP` padding (which the C
code computes from the absolute pointer value) is computed from the
offset into the buffer. -/

/-- Little-endian serialization of a 32-bit value (wraps modulo `2^32`). -/
def u32le (x : Nat) : List Nat :=
  [x % 256, x / 2 ^ 8 % 256, x / 2 ^ 16 % 256, x / 2 ^ 24 % 256]

/-- Little-endian serialization of a 64-bit value (wraps modulo `2^64`). -/
def u64le (x : Nat) : List Nat :=
  [x % 256, x / 2 ^ 8 % 256, x / 2 ^ 16 % 256, x / 2 ^ 24 % 256,
   x / 2 ^ 32 % 256, x / 2 ^ 40 % 256, x / 2 ^ 48 % 256, x / 2 ^ 56 % 256]

/-- Little-endian serialization of a signed 32-bit value
(two's complement). -/
def i32le (x : Int) : List Nat := u32le (x % 2 ^ 32).toNat

/-- Bytes emitted by `DWRF_ALIGNNOP(s)` at buffer offset `ofs`: `DWRF_CFA_nop`
(zero) bytes until the offset is a multiple of `s`. -/
def alignnop (s ofs : Nat) : List Nat := List.replicate ((s - ofs % s) % s) 0

/-- DWARF register numbers for x86-64 (`DWRF_REG_SP = 7`, `DWRF_REG_RA = 16`
from the register enumeration in the source). -/
def DWRF_REG_SP : Nat := 7

/-- Return-address register number for x86-64. -/
def DWRF_REG_RA : Nat := 16

/-- Body of the CIE emitted by `elf_init_ehframe` (x86-64), after the
4-byte length prefix: CIE id `0`, version `1`, augmentation `"zR"`,
code alignment `1`, data alignment `-8` (SLEB128), return-address
register, augmentation data length `1`, FDE encoding
`DWRF_EH_PE_pcrel | DWRF_EH_PE_sdata4` (`0x1b`),
`DWRF_CFA_def_cfa(SP, 8)`, `DWRF_CFA_offset(RA, 1)`. -/
def cie_body : List Nat :=
  u32le 0 ++ [1] ++ [0x7a, 0x52, 0x00] ++ elfctx_append_uleb128 1 ++
    elfctx_append_sleb128 (-8) ++ [DWRF_REG_RA] ++ elfctx_append_uleb128 1 ++
    [0x1b] ++ [0x0c] ++ elfctx_append_uleb128 DWRF_REG_SP ++
    elfctx_append_uleb128 8 ++ [0x80 + DWRF_REG_RA] ++ elfctx_append_uleb128 1

/-- Complete CIE: length prefix, body, `DWRF_ALIGNNOP(8)` padding
(the CIE starts at offset 0 of the scratch buffer). -/
def cie : List Nat :=
  let body := cie_body ++ alignnop 8 (4 + cie_body.length)
  u32le body.length ++ body

/-- Body of the FDE emitted by `elf_init_ehframe` (x86-64), after the
4-byte length prefix: back-offset to the CIE (`p - framep` at that
point, i.e. CIE length + 4), machine-code offset `-0x30`, machine-code
length, augmentation data length `0`, then
`advance_loc 4; def_cfa_offset 16; advance_loc 6; def_cfa_offset 8`. -/
def fde_body (code_size : Nat) : List Nat :=
  u32le (cie.length + 4) ++ i32le (-0x30) ++ u32le code_size ++ [0] ++
    [0x40 + 4, 0x0e] ++ elfctx_append_uleb128 16 ++
    [0x40 + 6, 0x0e] ++ elfctx_append_uleb128 8

/-- Complete FDE: length prefix, body, `DWRF_ALIGNNOP(8)` padding
(the FDE starts right after the CIE). -/
def fde (code_size : Nat) : List Nat :=
  let body := fde_body code_size ++
    alignnop 8 (cie.length + 4 + (fde_body code_size).length)
  u32le body.length ++ body

/-- Embedding of `elf_init_ehframe` (x86-64): the bytes the emitter
appends to the scratch buffer, one CIE followed by one FDE. -/
def elf_init_ehframe (code_size : Nat) : List Nat := cie ++ fde code_size

/-- Offset recorded in `ctx.eh_frame_p` (start of the FDE), used as
`cie_size` by `perf_map_jit_write_entry`. -/
def eh_frame_p_ofs : Nat := cie.length

/-- Byte size of `struct EhFrameHeader` (4 bytes + 4 × `int32_t`). -/
def sizeof_EhFrameHeader : Nat := 20

/-- Serialization of the `EhFrameHeader` built by
`perf_map_jit_write_entry`: version `1`,
`eh_frame_ptr_enc = DwarfSData4 | DwarfPcRel` (`0x1b`),
`fde_count_enc = DwarfUData4` (`0x03`),
`table_enc = DwarfSData4 | DwarfDataRel` (`0x3b`),
`eh_frame_ptr = -(eh_frame_size + 4)`, `eh_fde_count = 1`,
`from = -(round_up(code_size, 8) + eh_frame_size)`,
`to = -(eh_frame_size - cie_size)`. -/
def eh_frame_header_bytes (code_size eh_frame_size cie_size : Nat) : List Nat :=
  [1, 0x1b, 0x03, 0x3b] ++
    i32le (-((eh_frame_size : Int) + 4)) ++
    i32le 1 ++
    i32le (-(round_up (code_size : Int) 8 + (eh_frame_size : Int))) ++
    i32le (-((eh_frame_size : Int) - (cie_size : Int)))

/-- Serialization of `CodeUnwindingInfoEvent` (40 bytes:
`BaseEvent {event, size, time_stamp}` then `unwind_data_size`,
`eh_frame_hdr_size`, `mapped_size`). -/
def unwind_event_bytes (size ts unwind_data_size eh_frame_hdr_size
    mapped_size : Nat) : List Nat :=
  u32le 4 ++ u32le size ++ u64le ts ++ u64le unwind_data_size ++
    u64le eh_frame_hdr_size ++ u64le mapped_size

/-- Bytes of one complete `PerfUnwindingInfo` record as written by
`perf_map_jit_write_entry` for a stub of `code_size` bytes at monotonic
timestamp `ts`: the event struct, the `.eh_frame` bytes, the
`EhFrameHeader`, and zero padding to `round_up(content_size, 8)`. -/
def perf_unwinding_info_record (ts code_size : Nat) : List Nat :=
  let ehf := elf_init_ehframe code_size
  let eh_frame_size := ehf.length
  let unwind_data_size := sizeof_EhFrameHeader + eh_frame_size
  let content_size := 40 + sizeof_EhFrameHeader + eh_frame_size
  let padding_size := (round_up (content_size : Int) 8).toNat - content_size
  unwind_event_bytes (content_size + padding_size) ts unwind_data_size
      sizeof_EhFrameHeader (round_up (unwind_data_size : Int) 16).toNat ++
    ehf ++
    eh_frame_header_bytes code_size eh_frame_size eh_frame_p_ofs ++
    List.replicate padding_size 0

/-- Serialization of `CodeLoadEvent` (56 bytes).  The inclusive record
size stored in `base.size` is `sizeof(ev) + (name_length + 1) + size`
where `size` is the stub's byte count. -/
def code_load_event_bytes (ts pid tid vma code_addr stub_size code_id
    name_length : Nat) : List Nat :=
  u32le 0 ++ u32le (56 + (name_length + 1) + stub_size) ++ u64le ts ++
    u32le pid ++ u32le tid ++ u64le vma ++ u64le code_addr ++
    u64le stub_size ++ u64le code_id

/-- Bytes of one complete `PerfLoad` (code load) record: the event
struct, the NUL-terminated `"py::<qualname>:<filename>"` name, then the
stub's machine-code bytes (read from the trampoline address).  `name`
is the name without its terminating NUL; `stub` is the stub's code. -/
def perf_code_load_record (ts pid tid base code_id : Nat)
    (name stub : List Nat) : List Nat :=
  code_load_event_bytes ts pid tid base base stub.length code_id
      name.length ++ name ++ [0] ++ stub

/-- Inclusive record size field of a jitdump record: bytes 4..7 of the
record, decoded little-endian (`base.size` in `struct BaseEvent`). -/
def record_size_field (r : List Nat) : Nat :=
  r.getD 4 0 + 2 ^ 8 * r.getD 5 0 + 2 ^ 16 * r.getD 6 0 + 2 ^ 24 * r.getD 7 0

/-- Emitted jitdump records, keeping the `code_id` of load records
accessible. -/
inductive JitRecord
  | unwind (bytes : List Nat)
  | load (code_id : Nat) (bytes : List Nat)
deriving DecidableEq, Repr

/-- Sink state `PerfMapJitState`: the `code_id` counter and the records
written so far (the file handle, lock and handshake mapping are not
modelled). -/
structure PerfMapJitState where
  code_id : Nat
  records : List JitRecord
deriving DecidableEq, Repr

/-- State after `perf_map_jit_init`: `perf_jit_map_state.code_id = 0`
and no records written yet (only the file header precedes them). -/
def perf_map_jit_init_state : PerfMapJitState := ⟨0, []⟩

/-- Arguments of one `perf_map_jit_write_entry` call: the two
`get_current_monotonic_ticks()` timestamps, pid, tid, the stub address,
its code bytes, and the `"py::<qualname>:<filename>"` name. -/
structure JitWriteArgs where
  ts_unwind : Nat
  ts_load : Nat
  pid : Nat
  tid : Nat
  code_addr : Nat
  stub : List Nat
  name : List Nat
deriving DecidableEq, Repr

/-- Embedding of `perf_map_jit_write_entry` (state transition): writes
one `PerfUnwindingInfo` record followed by one `PerfLoad` record whose
`code_id` is the pre-incremented counter. -/
def perf_map_jit_write_entry (a : JitWriteArgs) (s : PerfMapJitState) :
    PerfMapJitState :=
  let cid := s.code_id + 1
  { code_id := cid,
    records := s.records ++
      [.unwind (perf_unwinding_info_record a.ts_unwind a.stub.length),
       .load cid (perf_code_load_record a.ts_load a.pid a.tid a.code_addr
          cid a.name a.stub)] }

/-- Sink state after a sequence of `perf_map_jit_write_entry` calls. -/
def jit_run : List JitWriteArgs → PerfMapJitState → PerfMapJitState
  | [], s => s
  | a :: as_, s => jit_run as_ (perf_map_jit_write_entry a s)

/-- The `code_id` values of the `PerfLoad` records, in file order. -/
def load_code_ids : List JitRecord → List Nat
  | [] => []
  | .unwind _ :: rs => load_code_ids rs
  | .load cid _ :: rs => cid :: load_code_ids rs

theorem uleb128_decode_append_uleb128 (v : Nat) :
    uleb128_decode (elfctx_append_uleb128 v) = v := by
  induction v using Nat.strong_induction_on with
  | _ v ih =>
    rw [elfctx_append_uleb128]
    by_cases h : v ≥ 0x80
    · rw [dif_pos h]
      have hlt : v / 0x80 < v := Nat.div_lt_self (by omega) (by omega)
      simp only [uleb128_decode]
      rw [if_neg (by omega), ih _ hlt]
      omega
    · rw [dif_neg h]
      simp only [uleb128_decode]
      rw [if_pos (by omega)]

theorem sleb128_decode_append_sleb128 (v : Int)
    (hlo : -(2 ^ 31) ≤ v) (hhi : v < 2 ^ 31) :
    sleb128_decode (elfctx_append_sleb128 v) = v := by
  have H : ∀ n (v : Int), v.natAbs = n → -(2 ^ 31) ≤ v → v < 2 ^ 31 →
      sleb128_decode (elfctx_append_sleb128 v) = v := by
    intro n
    induction n using Nat.strong_induction_on with
    | _ n ih =>
      intro v hn hlo hhi
      rw [elfctx_append_sleb128]
      by_cases h : (v + 0x40) % (2 ^ 32) ≥ 0x80
      · rw [dif_pos h]
        have hdec : (v / 0x80).natAbs < n := by omega
        simp only [sleb128_decode]
        rw [if_neg (by omega)]
        rw [ih _ hdec _ rfl (by omega) (by omega)]
        have hb : ((v % 0x80).toNat + 0x80) % 0x80 = (v % 0x80).toNat := by omega
        rw [hb]
        omega
      · rw [dif_neg h]
        simp only [sleb128_decode]
        by_cases hvpos : 0 ≤ v
        · rw [if_pos (by omega), if_neg (by omega)]
          omega
        · rw [if_pos (by omega), if_pos (by omega)]
          omega
  exact H v.natAbs v rfl hlo hhi


/-! ### Arithmetic helper lemmas -/

theorem le_round_up (x m : Int) (hm : 0 < m) : x ≤ round_up x m := by
  unfold round_up
  rw [if_neg (by omega)]
  by_cases hr : x.tmod m = 0
  · rw [if_pos hr]
  · rw [if_neg hr]
    have := Int.tmod_lt_of_pos x hm
    omega

theorem round_up_emod (x m : Int) (hm : 0 < m) : round_up x m % m = 0 := by
  unfold round_up
  rw [if_neg (by omega)]
  have ht := Int.tmod_add_tdiv x m
  by_cases hr : x.tmod m = 0
  · rw [if_pos hr]
    have hx : x = m * x.tdiv m := by linarith
    rw [hx]
    exact Int.mul_emod_right m _
  · rw [if_neg hr]
    have hx : x + (m - x.tmod m) = m * (x.tdiv m + 1) := by
      have : m * (x.tdiv m + 1) = m * x.tdiv m + m := by ring
      linarith
    rw [hx]
    exact Int.mul_emod_right m _

theorem round_up_le (x m : Int) (hx : 0 ≤ x) (hm : 0 < m) :
    round_up x m ≤ x + m - 1 := by
  unfold round_up
  rw [if_neg (by omega)]
  by_cases hr : x.tmod m = 0
  · rw [if_pos hr]; omega
  · rw [if_neg hr]
    have h1 : 0 ≤ x.tmod m := Int.tmod_nonneg m hx
    omega

theorem round_up_zero (x : Int) : round_up x 0 = x := by
  unfold round_up
  simp

theorem slot_size_spec (cs p : Nat) :
    cs + p ≤ slot_size cs p ∧ slot_size cs p % 16 = 0 ∧
      slot_size cs p ≤ cs + p + 15 := by
  unfold slot_size
  have h1 := le_round_up ((cs : Int) + p) 16 (by norm_num)
  have h2 := round_up_emod ((cs : Int) + p) 16 (by norm_num)
  have h3 := round_up_le ((cs : Int) + p) 16 (by positivity) (by norm_num)
  omega

theorem sub64_eq (a b : Nat) (hb : b ≤ a) (ha : a < 2 ^ 64) :
    sub64 a b = a - b := by
  unfold sub64
  have hblt : b % 2 ^ 64 = b := Nat.mod_eq_of_lt (by omega)
  rw [hblt]
  omega

/-! ### C9: `round_up` laws -/

/-- C9: for every value `x` and multiple `m`, if `m > 0` then
`round_up(x, m) ≥ x` and `round_up(x, m) mod m = 0`, and
`round_up(x, 0) = x`.  Confirmed as stated. -/
theorem c9_round_up_laws :
    (∀ x m : Int, 0 < m → x ≤ round_up x m ∧ round_up x m % m = 0) ∧
    ∀ x : Int, round_up x 0 = x :=
  ⟨fun x m hm => ⟨le_round_up x m hm, round_up_emod x m hm⟩, round_up_zero⟩

/-- Witness for C9 at `x = 5`, `m = 16` and `x = -23`, `m = 0`. -/
theorem c9_round_up_laws_witness :
    (5 ≤ round_up 5 16 ∧ round_up 5 16 % 16 = 0) ∧ round_up (-23) 0 = -23 :=
  ⟨c9_round_up_laws.1 5 16 (by norm_num), c9_round_up_laws.2 (-23)⟩

/-! ### C8: LEB128 round-trip -/

/-- C8: standard LEB128 decoding inverts the encoders: signed on
`[-2^31, 2^31)` (the `int32_t` domain of `elfctx_append_sleb128`),
unsigned on `[0, 2^32)` (the `uint32_t` domain of
`elfctx_append_uleb128`).  Confirmed as stated. -/
theorem c8_leb128_roundtrip :
    (∀ v : Int, -(2 ^ 31) ≤ v → v < 2 ^ 31 →
        sleb128_decode (elfctx_append_sleb128 v) = v) ∧
    ∀ v : Nat, v < 2 ^ 32 → uleb128_decode (elfctx_append_uleb128 v) = v :=
  ⟨fun v h1 h2 => sleb128_decode_append_sleb128 v h1 h2,
   fun v _ => uleb128_decode_append_uleb128 v⟩

/-- Witness for C8 at `v = -123456` (signed) and `v = 3000000000`
(unsigned). -/
theorem c8_leb128_roundtrip_witness :
    sleb128_decode (elfctx_append_sleb128 (-123456)) = -123456 ∧
    uleb128_decode (elfctx_append_uleb128 3000000000) = 3000000000 :=
  ⟨c8_leb128_roundtrip.1 (-123456) (by norm_num) (by norm_num),
   c8_leb128_roundtrip.2 3000000000 (by norm_num)⟩

/-! ### C5: the absent-head-arena case of `compile_trampoline` -/

/-- C5 (code bug): with an empty arena list, `compile_trampoline`
evaluates `perf_code_arena->code_size` before its `perf_code_arena ==
NULL` test and dereferences a null pointer; the absent-head case is not
handled at all, contrary to the claim.  The function's own NULL test on
the following line shows the intent the claim describes. -/
theorem c5_absent_head_crash (T : Nat) (o : SysOracle) (s : RuntimeState)
    (h : s.arenas = []) : compile_trampoline T o s = (s, .crash) := by
  unfold compile_trampoline
  rw [h]

/-- Witness for C5: a concrete state with no arenas crashes. -/
theorem c5_absent_head_crash_witness :
    compile_trampoline 16 ⟨some 4096, true, true⟩
        ⟨.ok, [], 0, .map, .map, false, true⟩ =
      (⟨.ok, [], 0, .map, .map, false, true⟩, .crash) :=
  c5_absent_head_crash 16 ⟨some 4096, true, true⟩
    ⟨.ok, [], 0, .map, .map, false, true⟩ rfl

/-! ### C2: allocation-failure handling -/

/-- C2 counterexample: an `mprotect` failure during arena creation
(`mmap` succeeded) makes `new_code_arena` return `-1` but leaves the
status `OK`, not `Failed` as the claim requires. -/
theorem c2_mprotect_failure_not_failed :
    (new_code_arena 16 ⟨some 4096, false, true⟩
        ⟨.ok, [], 0, .map, .map, false, true⟩).1.status = PerfStatus.ok ∧
    (new_code_arena 16 ⟨some 4096, false, true⟩
        ⟨.ok, [], 0, .map, .map, false, true⟩).2 = -1 :=
  ⟨rfl, rfl⟩

/-- C2 (amended): only an `mmap` failure sets the status to `Failed`
(`mprotect` and out-of-memory failures return `-1` with the status
unchanged, so only the current dispatch falls back and later dispatches
retry); once the status is `Failed`, every dispatch leaves the state
unchanged and returns exactly the default evaluator's result. -/
theorem c2_allocation_failure_amended :
    (∀ (T : Nat) (o : SysOracle) (s : RuntimeState), o.mmap_result = none →
        (new_code_arena T o s).1.status = .failed ∧
        (new_code_arena T o s).2 = -1) ∧
    (∀ (T : Nat) (o : SysOracle) (s : RuntimeState), o.mmap_result ≠ none →
        (new_code_arena T o s).1.status = s.status) ∧
    (∀ (T co : Nat) (o : SysOracle) (s : EvalState), s.rt.status = .failed →
        py_trampoline_evaluator T co o s = (s, .default_eval)) ∧
    ∀ (T : Nat) (tr : List (Nat × SysOracle)) (s : EvalState),
      s.rt.status = .failed → eval_trace T tr s = s := by
  refine ⟨?_, ?_, ?_, ?_⟩
  · intro T o s h
    unfold new_code_arena
    rw [h]
    exact ⟨rfl, rfl⟩
  · intro T o s h
    cases hm : o.mmap_result with
    | none => exact absurd hm h
    | some memory =>
        simp only [new_code_arena, hm]
        by_cases hp : o.mprotect_ok = false
        · rw [if_pos hp]
        · rw [if_neg hp]
          by_cases hc : o.calloc_ok = false
          · rw [if_pos hc]
          · rw [if_neg hc]
  · intro T co o s h
    unfold py_trampoline_evaluator
    rw [if_pos (Or.inl h)]
  · intro T tr s h
    induction tr with
    | nil => rfl
    | cons p tr ih =>
        obtain ⟨co, o⟩ := p
        unfold eval_trace
        rw [show (py_trampoline_evaluator T co o s).1 = s by
              rw [py_trampoline_evaluator, if_pos (Or.inl h)]]
        exact ih

/-- Witness for C2 (amended): a concrete `mmap` failure sets `Failed`;
a concrete dispatch in the `Failed` state is the default evaluation. -/
theorem c2_allocation_failure_amended_witness :
    ((new_code_arena 16 ⟨none, true, true⟩
        ⟨.ok, [], 0, .map, .map, false, true⟩).1.status = PerfStatus.failed ∧
      (new_code_arena 16 ⟨none, true, true⟩
        ⟨.ok, [], 0, .map, .map, false, true⟩).2 = -1) ∧
    py_trampoline_evaluator 16 5 ⟨some 4096, true, true⟩
        ⟨⟨.failed, [], 0, .map, .map, false, true⟩, fun _ => none, []⟩ =
      (⟨⟨.failed, [], 0, .map, .map, false, true⟩, fun _ => none, []⟩,
        .default_eval) :=
  ⟨c2_allocation_failure_amended.1 16 ⟨none, true, true⟩
      ⟨.ok, [], 0, .map, .map, false, true⟩ rfl,
   c2_allocation_failure_amended.2.2.1 16 5 ⟨some 4096, true, true⟩
      ⟨⟨.failed, [], 0, .map, .map, false, true⟩, fun _ => none, []⟩ rfl⟩

/-! ### C4: fork-time behaviour in the child -/

/-- C4 counterexample: with `persist_after_fork = true` and the jitdump
sink active, `_PyPerfTrampoline_AfterFork_Child` returns an error
immediately and leaves the state untouched: the subsystem is neither
torn down (the status stays `OK`) nor re-initialized (no new arena),
contrary to the claim. -/
theorem c4_jitdump_persist_not_reinitialized :
    _PyPerfTrampoline_AfterFork_Child 16 ⟨some 8192, true, true⟩ true
        ⟨.ok, [⟨4096, 4096, mem_size, mem_size, 16⟩], 0x100, .jitdump,
          .jitdump, true, true⟩ =
      (⟨.ok, [⟨4096, 4096, mem_size, mem_size, 16⟩], 0x100, .jitdump,
          .jitdump, true, true⟩, .error) ∧
    (⟨.ok, [⟨4096, 4096, mem_size, mem_size, 16⟩], 0x100, .jitdump,
        .jitdump, true, true⟩ : RuntimeState).status = PerfStatus.ok :=
  ⟨rfl, rfl⟩

/-- C4 (amended): with `persist_after_fork = false` the child tears the
subsystem down and, if the evaluator hook was installed, re-initializes
it fresh (hook re-installed, status `OK`, a new arena pushed onto the
list); but with `persist_after_fork = true` and an active sink other
than perfmap (in particular jitdump), the child returns an error with
the state completely unchanged. -/
theorem c4_afterfork_amended :
    (∀ (T : Nat) (o : SysOracle) (c : Bool) (s : RuntimeState) (m : Nat),
        s.persist_after_fork = false → s.hook_installed = true →
        o.mmap_result = some m → o.mprotect_ok = true → o.calloc_ok = true →
          (_PyPerfTrampoline_AfterFork_Child T o c s).1.status = .ok ∧
          (_PyPerfTrampoline_AfterFork_Child T o c s).1.hook_installed = true ∧
          (_PyPerfTrampoline_AfterFork_Child T o c s).1.arenas =
            ⟨m, m, mem_size, mem_size, T⟩ :: s.arenas ∧
          (_PyPerfTrampoline_AfterFork_Child T o c s).2 = .ok) ∧
    (∀ (T : Nat) (o : SysOracle) (c : Bool) (s : RuntimeState),
        s.persist_after_fork = false → s.hook_installed = false →
          _PyPerfTrampoline_AfterFork_Child T o c s =
            (_PyPerfTrampoline_Fini s, .ok)) ∧
    ∀ (T : Nat) (o : SysOracle) (c : Bool) (s : RuntimeState),
      s.persist_after_fork = true → s.tramp_type ≠ .map →
        _PyPerfTrampoline_AfterFork_Child T o c s = (s, .error) := by
  refine ⟨?_, ?_, ?_⟩
  · intro T o c s m hpf hact hm hp hc
    obtain ⟨st, ar, cp, tt, cb, pf, hi⟩ := s
    dsimp only at hpf hact
    subst hpf hact
    unfold _PyPerfTrampoline_AfterFork_Child _PyPerfTrampoline_Fini
      _PyPerfTrampoline_Init new_code_arena
    simp only [hm, hp, hc]
    cases st <;> cases cb <;> simp
  · intro T o c s hpf hact
    unfold _PyPerfTrampoline_AfterFork_Child
    rw [hpf]
    simp [hact]
  · intro T o c s hpf ht
    unfold _PyPerfTrampoline_AfterFork_Child
    rw [hpf]
    simp [ht]

/-- Witness for C4 (amended) at a concrete active perfmap state with
`persist_after_fork = false` and a concrete jitdump state with
`persist_after_fork = true`. -/
theorem c4_afterfork_amended_witness :
    ((_PyPerfTrampoline_AfterFork_Child 16 ⟨some 8192, true, true⟩ true
        ⟨.ok, [⟨4096, 4096, mem_size, mem_size, 16⟩], 0, .map, .map,
          false, true⟩).1.status = .ok ∧
      (_PyPerfTrampoline_AfterFork_Child 16 ⟨some 8192, true, true⟩ true
        ⟨.ok, [⟨4096, 4096, mem_size, mem_size, 16⟩], 0, .map, .map,
          false, true⟩).1.hook_installed = true ∧
      (_PyPerfTrampoline_AfterFork_Child 16 ⟨some 8192, true, true⟩ true
        ⟨.ok, [⟨4096, 4096, mem_size, mem_size, 16⟩], 0, .map, .map,
          false, true⟩).1.arenas =
        ⟨8192, 8192, mem_size, mem_size, 16⟩ ::
          [⟨4096, 4096, mem_size, mem_size, 16⟩] ∧
      (_PyPerfTrampoline_AfterFork_Child 16 ⟨some 8192, true, true⟩ true
        ⟨.ok, [⟨4096, 4096, mem_size, mem_size, 16⟩], 0, .map, .map,
          false, true⟩).2 = .ok) ∧
    _PyPerfTrampoline_AfterFork_Child 16 ⟨some 8192, true, true⟩ true
        ⟨.ok, [], 0x100, .jitdump, .jitdump, true, true⟩ =
      (⟨.ok, [], 0x100, .jitdump, .jitdump, true, true⟩, .error) :=
  ⟨c4_afterfork_amended.1 16 ⟨some 8192, true, true⟩ true
      ⟨.ok, [⟨4096, 4096, mem_size, mem_size, 16⟩], 0, .map, .map,
        false, true⟩ 8192 rfl rfl rfl rfl rfl,
   c4_afterfork_amended.2.2 16 ⟨some 8192, true, true⟩ true
      ⟨.ok, [], 0x100, .jitdump, .jitdump, true, true⟩ rfl
      (by intro h; cases h)⟩

/-! ### C10: `PyUnstable_PerfTrampoline_CompileCode` return values -/

/-- C10: `PyUnstable_PerfTrampoline_CompileCode` returns `0` when a
trampoline is already attached, returns `0` when a stub is materialized
and the extra-slot set succeeds, and returns `0` when
`compile_trampoline` fails -- in the failure case without any sink
write and with the extra slot left null, indistinguishable from
success.  Confirmed as stated. -/
theorem c10_compile_code_returns_zero (T co : Nat) (o : SysOracle)
    (b : Bool) (s : EvalState) :
    (∀ f, s.extra co = some f →
        PyUnstable_PerfTrampoline_CompileCode T co o b s = (s, some 0)) ∧
    (s.extra co = none → (compile_trampoline T o s.rt).2 = .fail →
        (PyUnstable_PerfTrampoline_CompileCode T co o b s).2 = some 0 ∧
        (PyUnstable_PerfTrampoline_CompileCode T co o b s).1.extra co = none ∧
        (PyUnstable_PerfTrampoline_CompileCode T co o b s).1.writes =
          s.writes) ∧
    (s.extra co = none → b = true →
        ∀ addr, (compile_trampoline T o s.rt).2 = .ok addr →
          (PyUnstable_PerfTrampoline_CompileCode T co o b s).2 = some 0) := by
  refine ⟨?_, ?_, ?_⟩
  · intro f hf
    unfold PyUnstable_PerfTrampoline_CompileCode
    rw [hf]
  · intro hn hfail
    unfold PyUnstable_PerfTrampoline_CompileCode
    rw [hn]
    cases hcr : compile_trampoline T o s.rt with
    | mk rt' r =>
        rw [hcr] at hfail
        cases r with
        | crash => cases hfail
        | fail => exact ⟨rfl, hn, rfl⟩
        | ok addr => cases hfail
  · intro hn hb addr hok
    unfold PyUnstable_PerfTrampoline_CompileCode
    rw [hn]
    cases hcr : compile_trampoline T o s.rt with
    | mk rt' r =>
        rw [hcr] at hok
        cases r with
        | crash => cases hok
        | fail => cases hok
        | ok addr2 =>
            rw [hb]
            simp

/-- Witness for C10: concrete already-attached, compile-failure and
compile-success calls all return `0`. -/
theorem c10_compile_code_returns_zero_witness :
    PyUnstable_PerfTrampoline_CompileCode 16 5 ⟨some 8192, true, true⟩ true
        ⟨⟨.ok, [⟨4096, 4096, mem_size, mem_size, 16⟩], 0, .map, .map,
            false, true⟩, fun _ => some 4096, []⟩ =
      (⟨⟨.ok, [⟨4096, 4096, mem_size, mem_size, 16⟩], 0, .map, .map,
            false, true⟩, fun _ => some 4096, []⟩, some 0) ∧
    ((PyUnstable_PerfTrampoline_CompileCode 16 5 ⟨none, true, true⟩ true
        ⟨⟨.ok, [⟨4096, 4096, mem_size, 0, 16⟩], 0, .map, .map,
            false, true⟩, fun _ => none, []⟩).2 = some 0 ∧
      (PyUnstable_PerfTrampoline_CompileCode 16 5 ⟨none, true, true⟩ true
        ⟨⟨.ok, [⟨4096, 4096, mem_size, 0, 16⟩], 0, .map, .map,
            false, true⟩, fun _ => none, []⟩).1.extra 5 = none ∧
      (PyUnstable_PerfTrampoline_CompileCode 16 5 ⟨none, true, true⟩ true
        ⟨⟨.ok, [⟨4096, 4096, mem_size, 0, 16⟩], 0, .map, .map,
            false, true⟩, fun _ => none, []⟩).1.writes = []) ∧
    (PyUnstable_PerfTrampoline_CompileCode 16 5 ⟨some 8192, true, true⟩ true
        ⟨⟨.ok, [⟨4096, 4096, mem_size, mem_size, 16⟩], 0, .map, .map,
            false, true⟩, fun _ => none, []⟩).2 = some 0 :=
  ⟨(c10_compile_code_returns_zero 16 5 ⟨some 8192, true, true⟩ true
      ⟨⟨.ok, [⟨4096, 4096, mem_size, mem_size, 16⟩], 0, .map, .map,
          false, true⟩, fun _ => some 4096, []⟩).1 4096 rfl,
   (c10_compile_code_returns_zero 16 5 ⟨none, true, true⟩ true
      ⟨⟨.ok, [⟨4096, 4096, mem_size, 0, 16⟩], 0, .map, .map,
          false, true⟩, fun _ => none, []⟩).2.1 rfl rfl,
   (c10_compile_code_returns_zero 16 5 ⟨some 8192, true, true⟩ true
      ⟨⟨.ok, [⟨4096, 4096, mem_size, mem_size, 16⟩], 0, .map, .map,
          false, true⟩, fun _ => none, []⟩).2.2 rfl rfl 4096 rfl⟩

/-! ### C1: when a new arena is allocated -/

theorem compile_trampoline_serve (T : Nat) (o : SysOracle) (s : RuntimeState)
    (a : CodeArena) (rest : List CodeArena) (hs : s.arenas = a :: rest)
    (hlt : slot_size a.code_size s.code_padding < a.size_left) :
    compile_trampoline T o s =
      ({ s with arenas :=
          { a with
              current_addr :=
                a.current_addr + slot_size a.code_size s.code_padding,
              size_left :=
                sub64 a.size_left (slot_size a.code_size s.code_padding) }
            :: rest }, .ok a.current_addr) := by
  unfold compile_trampoline
  rw [hs]
  dsimp only
  rw [if_neg (by omega)]
  rfl

theorem compile_trampoline_newarena (T : Nat) (o : SysOracle)
    (s : RuntimeState) (a : CodeArena) (rest : List CodeArena) (m : Nat)
    (hs : s.arenas = a :: rest)
    (hle : a.size_left ≤ slot_size a.code_size s.code_padding)
    (hm : o.mmap_result = some m) (hp : o.mprotect_ok = true)
    (hc : o.calloc_ok = true) :
    compile_trampoline T o s =
      ({ s with arenas :=
          { start_addr := m,
            current_addr := m + slot_size T s.code_padding,
            size := mem_size,
            size_left := sub64 mem_size (slot_size T s.code_padding),
            code_size := T } :: a :: rest }, .ok m) := by
  unfold compile_trampoline
  rw [hs]
  dsimp only
  rw [if_pos hle]
  unfold new_code_arena
  rw [hm]
  simp only [hp, hc]
  norm_num
  rw [hs]
  simp [code_arena_new_code]

theorem acquire_iter_fresh (T : Nat) (o : SysOracle) (s : RuntimeState)
    (a : CodeArena) (rest : List CodeArena) (S : Nat)
    (hs : s.arenas = a :: rest) (hfresh : a.size_left = mem_size)
    (hS : S = slot_size a.code_size s.code_padding) :
    ∀ k, k * S < mem_size →
      acquire_iter T o s k =
        { s with arenas :=
            { a with current_addr := a.current_addr + k * S,
                     size_left := mem_size - k * S } :: rest } := by
  subst hS
  obtain ⟨st, ar, cp, tt, cb, pf, hi⟩ := s
  obtain ⟨a1, a2, a3, a4, a5⟩ := a
  dsimp only at hs hfresh ⊢
  subst hs hfresh
  intro k
  induction k with
  | zero =>
      intro _
      dsimp only [acquire_iter]
      norm_num
  | succ k ih =>
      intro hk
      have hmul : (k + 1) * slot_size a5 cp =
          k * slot_size a5 cp + slot_size a5 cp := by ring
      have hk' : k * slot_size a5 cp < mem_size := by omega
      dsimp only [acquire_iter]
      rw [ih hk']
      rw [compile_trampoline_serve T o _
        ⟨a1, a2 + k * slot_size a5 cp, a3,
          mem_size - k * slot_size a5 cp, a5⟩ rest rfl
        (by show slot_size a5 cp < mem_size - k * slot_size a5 cp; omega)]
      dsimp only
      have hmemlt : mem_size - k * slot_size a5 cp < 2 ^ 64 := by
        unfold mem_size
        omega
      rw [sub64_eq (mem_size - k * slot_size a5 cp) (slot_size a5 cp)
        (by omega) hmemlt]
      have e1 : a2 + k * slot_size a5 cp + slot_size a5 cp =
          a2 + (k + 1) * slot_size a5 cp := by ring
      have e2 : mem_size - k * slot_size a5 cp - slot_size a5 cp =
          mem_size - (k + 1) * slot_size a5 cp := by omega
      rw [e1, e2]

/-- C1 counterexample: `compile_trampoline` allocates a new arena
already when `size_left = S` (the code tests `size_left <=
total_code_size`, not `<`).  With `T = 128`, `P = 0` (so `S = 128`
divides `A = 65536`), starting from one fresh arena at `4096`, after
511 successful acquisitions the single arena has exactly one slot left
(`size_left = 128`); the `⌊A/S⌋ = 512`-th acquisition then does not
come from the current arena as the claim states: it allocates a second
arena and returns the new mapping's base address `200000`. -/
theorem c1_512th_acquisition_new_arena :
    (acquire_iter 128 ⟨some 200000, true, true⟩
        ⟨.ok, [⟨4096, 4096, 65536, 65536, 128⟩], 0, .map, .map, false, true⟩
        511).arenas =
      [⟨4096, 4096 + 511 * 128, 65536, 65536 - 511 * 128, 128⟩] ∧
    (compile_trampoline 128 ⟨some 200000, true, true⟩
        (acquire_iter 128 ⟨some 200000, true, true⟩
          ⟨.ok, [⟨4096, 4096, 65536, 65536, 128⟩], 0, .map, .map, false, true⟩
          511)).2 = .ok 200000 ∧
    (compile_trampoline 128 ⟨some 200000, true, true⟩
        (acquire_iter 128 ⟨some 200000, true, true⟩
          ⟨.ok, [⟨4096, 4096, 65536, 65536, 128⟩], 0, .map, .map, false, true⟩
          511)).1.arenas.length = 2 := by
  have h511 := acquire_iter_fresh 128 ⟨some 200000, true, true⟩
    ⟨.ok, [⟨4096, 4096, 65536, 65536, 128⟩], 0, .map, .map, false, true⟩
    ⟨4096, 4096, 65536, 65536, 128⟩ [] 128 rfl rfl (by decide) 511 (by decide)
  refine ⟨?_, ?_, ?_⟩
  · rw [h511]
    decide
  · rw [h511]
    decide
  · rw [h511]
    decide

/-- C1 (amended): with a head arena present, a new arena is allocated
exactly when `size_left ≤ S`; when `S < size_left` the slot comes from
the current head arena (the absent-head case crashes, see the C5
record).  When `S` divides `A = 65536`: starting from a fresh arena,
acquisitions `1 .. ⌊A/S⌋ - 1` are all served from that arena, and
already the `⌊A/S⌋`-th acquisition triggers a new arena (its slot is
the new mapping's base), leaving the final slot of the old arena
unused. -/
theorem c1_new_arena_exactly_when (T : Nat) (o : SysOracle)
    (s : RuntimeState) (a : CodeArena) (rest : List CodeArena)
    (hs : s.arenas = a :: rest) :
    (slot_size a.code_size s.code_padding < a.size_left →
        (compile_trampoline T o s).2 = .ok a.current_addr ∧
        (compile_trampoline T o s).1.arenas.length = s.arenas.length) ∧
    (∀ m, a.size_left ≤ slot_size a.code_size s.code_padding →
        o.mmap_result = some m → o.mprotect_ok = true → o.calloc_ok = true →
        (compile_trampoline T o s).2 = .ok m ∧
        (compile_trampoline T o s).1.arenas.length = s.arenas.length + 1) ∧
    ∀ S, S = slot_size a.code_size s.code_padding →
      a.size_left = mem_size → 0 < S → S ∣ mem_size →
      (∀ k, k < mem_size / S →
          (acquire_iter T o s k).arenas.length = s.arenas.length ∧
          (k + 1 < mem_size / S →
            (compile_trampoline T o (acquire_iter T o s k)).2 =
              .ok (a.current_addr + k * S))) ∧
      ∀ m, o.mmap_result = some m → o.mprotect_ok = true →
        o.calloc_ok = true →
        (compile_trampoline T o
            (acquire_iter T o s (mem_size / S - 1))).2 = .ok m ∧
        (acquire_iter T o s (mem_size / S)).arenas.length =
          s.arenas.length + 1 := by
  refine ⟨?_, ?_, ?_⟩
  · intro hlt
    rw [compile_trampoline_serve T o s a rest hs hlt]
    simp [hs]
  · intro m hle hm hp hc
    rw [compile_trampoline_newarena T o s a rest m hs hle hm hp hc]
    simp [hs]
  · intro S hS hfresh hpos hdvd
    obtain ⟨n, hn⟩ := hdvd
    have hn' : n = mem_size / S := by
      rw [hn]
      exact (Nat.mul_div_cancel_left n hpos).symm
    have hnpos : 0 < n := by
      rcases Nat.eq_zero_or_pos n with hz | hp2
      · rw [hz, Nat.mul_zero] at hn
        have hms : (0 : Nat) < mem_size := by unfold mem_size; omega
        omega
      · exact hp2
    constructor
    · intro k hk
      have hkn : k < n := by omega
      have hkS : k * S < mem_size := by
        rw [hn]
        calc k * S < n * S := (Nat.mul_lt_mul_right hpos).mpr hkn
          _ = S * n := by ring
      have hstate := acquire_iter_fresh T o s a rest S hs hfresh hS k hkS
      constructor
      · rw [hstate, hs]
        simp
      · intro hk1
        have hkn1 : k + 1 < n := by omega
        have hk1S : (k + 1) * S < mem_size := by
          rw [hn]
          calc (k + 1) * S < n * S := (Nat.mul_lt_mul_right hpos).mpr hkn1
            _ = S * n := by ring
        have hmul : (k + 1) * S = k * S + S := by ring
        have hserve := compile_trampoline_serve T o
          { s with arenas :=
              { a with current_addr := a.current_addr + k * S,
                       size_left := mem_size - k * S } :: rest }
          { a with current_addr := a.current_addr + k * S,
                   size_left := mem_size - k * S } rest rfl
          (by show slot_size a.code_size s.code_padding <
                mem_size - k * S
              rw [← hS]
              omega)
        rw [hstate, hserve]
    · intro m hm hp hc
      have hn1 : n - 1 < n := by omega
      have hlast : (mem_size / S - 1) * S < mem_size := by
        rw [← hn', hn]
        calc (n - 1) * S < n * S := (Nat.mul_lt_mul_right hpos).mpr hn1
          _ = S * n := by ring
      have hstate := acquire_iter_fresh T o s a rest S hs hfresh hS
        (mem_size / S - 1) hlast
      have hsz : mem_size - (mem_size / S - 1) * S = S := by
        rw [← hn']
        have hmul : (n - 1) * S + S = n * S := by
          cases n with
          | zero => omega
          | succ p => simp [Nat.succ_mul, Nat.succ_sub_one]
        have hSn : S * n = n * S := by ring
        omega
      have hnew := compile_trampoline_newarena T o
        { s with arenas :=
            { a with
                current_addr := a.current_addr + (mem_size / S - 1) * S,
                size_left := mem_size - (mem_size / S - 1) * S } :: rest }
        { a with
            current_addr := a.current_addr + (mem_size / S - 1) * S,
            size_left := mem_size - (mem_size / S - 1) * S } rest m rfl
        (by show mem_size - (mem_size / S - 1) * S ≤
              slot_size a.code_size s.code_padding
            rw [← hS, hsz]) hm hp hc
      constructor
      · rw [hstate, hnew]
      · have hstep : mem_size / S = (mem_size / S - 1) + 1 := by omega
        rw [hstep]
        dsimp only [acquire_iter]
        rw [hstate, hnew]
        simp [hs]

/-- Witness for C1 (amended): concrete instantiations with `S = 128`
dividing `A`, at a fresh single-arena state. -/
theorem c1_new_arena_exactly_when_witness :
    ((compile_trampoline 128 ⟨some 200000, true, true⟩
        ⟨.ok, [⟨4096, 4096, 65536, 65536, 128⟩], 0, .map, .map, false,
          true⟩).2 = .ok 4096) ∧
    ((acquire_iter 128 ⟨some 200000, true, true⟩
        ⟨.ok, [⟨4096, 4096, 65536, 65536, 128⟩], 0, .map, .map, false, true⟩
        (65536 / 128)).arenas.length = 1 + 1) := by
  constructor
  · exact ((c1_new_arena_exactly_when 128 ⟨some 200000, true, true⟩
      ⟨.ok, [⟨4096, 4096, 65536, 65536, 128⟩], 0, .map, .map, false, true⟩
      ⟨4096, 4096, 65536, 65536, 128⟩ [] rfl).1 (by decide)).1
  · exact (((c1_new_arena_exactly_when 128 ⟨some 200000, true, true⟩
      ⟨.ok, [⟨4096, 4096, 65536, 65536, 128⟩], 0, .map, .map, false, true⟩
      ⟨4096, 4096, 65536, 65536, 128⟩ [] rfl).2.2 128 (by decide) rfl
      (by decide) (by decide)).2 200000 rfl rfl rfl).2

/-! ### C3: jitdump record sizes -/

theorem uleb128_small (v : Nat) (h : v < 0x80) :
    elfctx_append_uleb128 v = [v] := by
  unfold elfctx_append_uleb128
  rw [dif_neg (by omega)]

theorem sleb128_neg_eight : elfctx_append_sleb128 (-8) = [0x78] := by
  unfold elfctx_append_sleb128
  rw [dif_neg (by decide)]
  decide

theorem cie_length : cie.length = 24 := by
  have hbody : cie_body.length = 18 := by
    unfold cie_body DWRF_REG_RA DWRF_REG_SP
    rw [uleb128_small 1 (by omega), sleb128_neg_eight,
      uleb128_small 7 (by omega), uleb128_small 8 (by omega)]
    rfl
  unfold cie alignnop
  simp [hbody, u32le]

theorem fde_length (code_size : Nat) : (fde code_size).length = 24 := by
  have hbody : (fde_body code_size).length = 19 := by
    unfold fde_body
    rw [uleb128_small 16 (by omega), uleb128_small 8 (by omega)]
    simp [u32le, i32le, cie_length]
  unfold fde alignnop
  simp [hbody, u32le, cie_length]

theorem elf_init_ehframe_length (code_size : Nat) :
    (elf_init_ehframe code_size).length = 48 := by
  unfold elf_init_ehframe
  simp [cie_length, fde_length]

theorem perf_unwinding_info_record_length (ts code_size : Nat) :
    (perf_unwinding_info_record ts code_size).length = 112 := by
  simp only [perf_unwinding_info_record, sizeof_EhFrameHeader,
    elf_init_ehframe_length]
  norm_num
  rw [show (round_up (108 : Int) 8).toNat = 112 from by decide]
  simp [unwind_event_bytes, u32le, u64le, eh_frame_header_bytes, i32le,
    elf_init_ehframe_length]

theorem perf_unwinding_info_record_size_field (ts code_size : Nat) :
    record_size_field (perf_unwinding_info_record ts code_size) = 112 := by
  simp only [perf_unwinding_info_record, sizeof_EhFrameHeader,
    elf_init_ehframe_length]
  norm_num
  rw [show (round_up (108 : Int) 8).toNat = 112 from by decide]
  norm_num
  simp [record_size_field, unwind_event_bytes, u32le, List.cons_append,
    List.append_assoc]

theorem record_size_field_cons (b0 b1 b2 b3 b4 b5 b6 b7 : Nat)
    (l : List Nat) :
    record_size_field (b0 :: b1 :: b2 :: b3 :: b4 :: b5 :: b6 :: b7 :: l) =
      b4 + 2 ^ 8 * b5 + 2 ^ 16 * b6 + 2 ^ 24 * b7 := by
  simp [record_size_field]

/-- C3 counterexample: a `CodeLoad` record for the name
`"py::f:a.py"` (10 bytes) and a 96-byte stub is `56 + 11 + 96 = 163`
bytes long, which is not a multiple of 8 — the code writes no padding
after a `CodeLoad` record. -/
theorem c3_code_load_record_not_multiple_of_8 :
    ¬ ((perf_code_load_record 0 1 1 4096 1
          (List.replicate 10 65) (List.replicate 96 0)).length % 8 = 0) := by
  simp [perf_code_load_record, code_load_event_bytes, u32le, u64le]

/-- C3 (amended): every `UnwindingInfo` record's byte length is a
multiple of 8 and equals its inclusive `size` field; a `CodeLoad`
record's byte length equals its inclusive `size` field (as long as
that length fits the `uint32_t` field), but it is a multiple of 8 only
when `1 + name length + stub size` is — the code does not pad
`CodeLoad` records. -/
theorem c3_record_sizes_amended :
    (∀ ts code_size : Nat,
        (perf_unwinding_info_record ts code_size).length % 8 = 0 ∧
        (perf_unwinding_info_record ts code_size).length =
          record_size_field (perf_unwinding_info_record ts code_size)) ∧
    ∀ (ts pid tid base cid : Nat) (name stub : List Nat),
      56 + (name.length + 1) + stub.length < 2 ^ 32 →
      (perf_code_load_record ts pid tid base cid name stub).length =
          record_size_field
            (perf_code_load_record ts pid tid base cid name stub) ∧
      (perf_code_load_record ts pid tid base cid name stub).length % 8 =
          (1 + name.length + stub.length) % 8 := by
  constructor
  · intro ts code_size
    rw [perf_unwinding_info_record_length,
      perf_unwinding_info_record_size_field]
    exact ⟨rfl, rfl⟩
  · intro ts pid tid base cid name stub hlt
    constructor
    · unfold perf_code_load_record code_load_event_bytes
      unfold u32le u64le
      simp only [List.cons_append, List.nil_append]
      rw [record_size_field_cons]
      simp only [List.length_append, List.length_cons, List.length_nil]
      omega
    · unfold perf_code_load_record code_load_event_bytes
      unfold u32le u64le
      simp only [List.cons_append, List.nil_append, List.length_append,
        List.length_cons, List.length_nil]
      omega

/-- Witness for C3 (amended) at a concrete timestamp, stub size and
name. -/
theorem c3_record_sizes_amended_witness :
    ((perf_unwinding_info_record 7 96).length % 8 = 0 ∧
      (perf_unwinding_info_record 7 96).length =
        record_size_field (perf_unwinding_info_record 7 96)) ∧
    ((perf_code_load_record 0 1 1 4096 1 (List.replicate 10 65)
          (List.replicate 96 0)).length =
        record_size_field (perf_code_load_record 0 1 1 4096 1
          (List.replicate 10 65) (List.replicate 96 0)) ∧
      (perf_code_load_record 0 1 1 4096 1 (List.replicate 10 65)
          (List.replicate 96 0)).length % 8 =
        (1 + (List.replicate 10 (65 : Nat)).length +
          (List.replicate 96 (0 : Nat)).length) % 8) :=
  ⟨c3_record_sizes_amended.1 7 96,
   c3_record_sizes_amended.2 0 1 1 4096 1 (List.replicate 10 65)
     (List.replicate 96 0) (by simp)⟩

/-! ### C6: one trampoline and one sink write per code object -/

theorem eval_trace_append (T : Nat) (tr1 tr2 : List (Nat × SysOracle)) :
    ∀ s, eval_trace T (tr1 ++ tr2) s = eval_trace T tr2 (eval_trace T tr1 s) := by
  induction tr1 with
  | nil => intro s; rfl
  | cons p tr ih =>
      intro s
      obtain ⟨co, o⟩ := p
      simp only [List.cons_append, eval_trace]
      exact ih _

theorem py_trampoline_evaluator_extra_mono (T co' : Nat) (o : SysOracle)
    (s : EvalState) (co a : Nat) (h : s.extra co = some a) :
    (py_trampoline_evaluator T co' o s).1.extra co = some a ∧
    writesFor co (py_trampoline_evaluator T co' o s).1 = writesFor co s := by
  unfold py_trampoline_evaluator
  by_cases hst : s.rt.status = .failed ∨ s.rt.status = .no_init
  · rw [if_pos hst]
    exact ⟨h, rfl⟩
  · rw [if_neg hst]
    cases hx : s.extra co' with
    | some f => exact ⟨h, rfl⟩
    | none =>
        have hne : co ≠ co' := by
          intro he
          rw [he, hx] at h
          cases h
        cases hcr : compile_trampoline T o s.rt with
        | mk rt' r =>
            cases r with
            | crash => exact ⟨h, rfl⟩
            | fail => exact ⟨h, rfl⟩
            | ok addr =>
                constructor
                · dsimp only
                  rw [if_neg hne]
                  exact h
                · unfold writesFor
                  dsimp only
                  rw [List.filter_append]
                  simp [Ne.symm hne]

theorem py_trampoline_evaluator_fresh (T co' : Nat) (o : SysOracle)
    (s : EvalState) (co : Nat) (h : s.extra co = none) :
    ((py_trampoline_evaluator T co' o s).1.extra co = none ∧
      writesFor co (py_trampoline_evaluator T co' o s).1 = writesFor co s) ∨
    ∃ addr, (py_trampoline_evaluator T co' o s).1.extra co = some addr ∧
      writesFor co (py_trampoline_evaluator T co' o s).1 =
        writesFor co s + 1 := by
  unfold py_trampoline_evaluator
  by_cases hst : s.rt.status = .failed ∨ s.rt.status = .no_init
  · rw [if_pos hst]
    exact Or.inl ⟨h, rfl⟩
  · rw [if_neg hst]
    cases hx : s.extra co' with
    | some f => exact Or.inl ⟨h, rfl⟩
    | none =>
        cases hcr : compile_trampoline T o s.rt with
        | mk rt' r =>
            cases r with
            | crash => exact Or.inl ⟨h, rfl⟩
            | fail => exact Or.inl ⟨h, rfl⟩
            | ok addr =>
                by_cases hco : co = co'
                · right
                  refine ⟨addr, ?_, ?_⟩
                  · dsimp only
                    rw [if_pos hco]
                  · unfold writesFor
                    dsimp only
                    rw [List.filter_append]
                    simp [hco]
                · left
                  constructor
                  · dsimp only
                    rw [if_neg hco]
                    exact h
                  · unfold writesFor
                    dsimp only
                    rw [List.filter_append]
                    simp [Ne.symm hco]

theorem eval_trace_extra_mono (T : Nat) (tr : List (Nat × SysOracle)) :
    ∀ (s : EvalState) (co a : Nat), s.extra co = some a →
      (eval_trace T tr s).extra co = some a ∧
      writesFor co (eval_trace T tr s) = writesFor co s := by
  induction tr with
  | nil => exact fun s co a h => ⟨h, rfl⟩
  | cons p tr ih =>
      intro s co a h
      obtain ⟨co', o⟩ := p
      obtain ⟨h1, h2⟩ := py_trampoline_evaluator_extra_mono T co' o s co a h
      obtain ⟨h3, h4⟩ := ih _ co a h1
      exact ⟨h3, by rw [eval_trace, h4, h2]⟩

theorem eval_trace_at_most_once (T : Nat) (tr : List (Nat × SysOracle)) :
    ∀ (s : EvalState) (co : Nat), s.extra co = none →
      ((eval_trace T tr s).extra co = none ∧
        writesFor co (eval_trace T tr s) = writesFor co s) ∨
      ∃ a, (eval_trace T tr s).extra co = some a ∧
        writesFor co (eval_trace T tr s) = writesFor co s + 1 := by
  induction tr with
  | nil => exact fun s co h => Or.inl ⟨h, rfl⟩
  | cons p tr ih =>
      intro s co h
      obtain ⟨co', o⟩ := p
      rcases py_trampoline_evaluator_fresh T co' o s co h with
        ⟨h1, h2⟩ | ⟨addr, h1, h2⟩
      · rcases ih _ co h1 with ⟨h3, h4⟩ | ⟨a, h3, h4⟩
        · exact Or.inl ⟨h3, by rw [eval_trace, h4, h2]⟩
        · exact Or.inr ⟨a, h3, by rw [eval_trace, h4, h2]⟩
      · obtain ⟨h3, h4⟩ :=
          eval_trace_extra_mono T tr _ co addr h1
        exact Or.inr ⟨addr, h3, by rw [eval_trace, h4, h2]⟩

/-- C6: for every code object `co`, over any sequence of dispatches
from a state where `co` has no trampoline and no sink write yet
(and `_PyCode_SetExtra` succeeding, as the model assumes): at most one
sink write ever occurs for `co`; whenever a trampoline address is
stored for `co`, exactly one sink write has occurred; and once an
address is stored after some prefix of the dispatches, every later
dispatch sees exactly that address (so at most one distinct trampoline
address is ever assigned).  Confirmed as stated. -/
theorem c6_one_trampoline_per_code_object (T : Nat)
    (tr : List (Nat × SysOracle)) (s : EvalState) (co : Nat)
    (h : s.extra co = none) (hw : writesFor co s = 0) :
    writesFor co (eval_trace T tr s) ≤ 1 ∧
    (∀ a, (eval_trace T tr s).extra co = some a →
        writesFor co (eval_trace T tr s) = 1) ∧
    ∀ tr1 tr2 a, tr = tr1 ++ tr2 →
      (eval_trace T tr1 s).extra co = some a →
      (eval_trace T tr s).extra co = some a := by
  refine ⟨?_, ?_, ?_⟩
  · rcases eval_trace_at_most_once T tr s co h with ⟨_, h2⟩ | ⟨a, _, h2⟩
    · omega
    · omega
  · intro a ha
    rcases eval_trace_at_most_once T tr s co h with ⟨h1, _⟩ | ⟨b, h1, h2⟩
    · rw [ha] at h1
      cases h1
    · omega
  · intro tr1 tr2 a htr ha
    rw [htr, eval_trace_append]
    exact (eval_trace_extra_mono T tr2 _ co a ha).1

/-- Witness for C6: a concrete code object dispatched three times (the
first compiles and writes, the later two reuse the stored address). -/
theorem c6_one_trampoline_per_code_object_witness :
    writesFor 5 (eval_trace 16
        [(5, ⟨some 8192, true, true⟩), (5, ⟨some 8192, true, true⟩),
          (5, ⟨some 8192, true, true⟩)]
        ⟨⟨.ok, [⟨4096, 4096, mem_size, mem_size, 16⟩], 0, .map, .map,
            false, true⟩, fun _ => none, []⟩) ≤ 1 ∧
    (∀ a, (eval_trace 16
        [(5, ⟨some 8192, true, true⟩), (5, ⟨some 8192, true, true⟩),
          (5, ⟨some 8192, true, true⟩)]
        ⟨⟨.ok, [⟨4096, 4096, mem_size, mem_size, 16⟩], 0, .map, .map,
            false, true⟩, fun _ => none, []⟩).extra 5 = some a →
        writesFor 5 (eval_trace 16
          [(5, ⟨some 8192, true, true⟩), (5, ⟨some 8192, true, true⟩),
            (5, ⟨some 8192, true, true⟩)]
          ⟨⟨.ok, [⟨4096, 4096, mem_size, mem_size, 16⟩], 0, .map, .map,
              false, true⟩, fun _ => none, []⟩) = 1) ∧
    ∀ tr1 tr2 a,
      [(5, (⟨some 8192, true, true⟩ : SysOracle)),
        (5, ⟨some 8192, true, true⟩), (5, ⟨some 8192, true, true⟩)] =
        tr1 ++ tr2 →
      (eval_trace 16 tr1
        ⟨⟨.ok, [⟨4096, 4096, mem_size, mem_size, 16⟩], 0, .map, .map,
            false, true⟩, fun _ => none, []⟩).extra 5 = some a →
      (eval_trace 16
        [(5, ⟨some 8192, true, true⟩), (5, ⟨some 8192, true, true⟩),
          (5, ⟨some 8192, true, true⟩)]
        ⟨⟨.ok, [⟨4096, 4096, mem_size, mem_size, 16⟩], 0, .map, .map,
            false, true⟩, fun _ => none, []⟩).extra 5 = some a :=
  c6_one_trampoline_per_code_object 16
    [(5, ⟨some 8192, true, true⟩), (5, ⟨some 8192, true, true⟩),
      (5, ⟨some 8192, true, true⟩)]
    ⟨⟨.ok, [⟨4096, 4096, mem_size, mem_size, 16⟩], 0, .map, .map,
        false, true⟩, fun _ => none, []⟩ 5 rfl rfl

/-! ### C7: `code_id` monotonicity in the jitdump sink -/

theorem load_code_ids_append (rs ts : List JitRecord) :
    load_code_ids (rs ++ ts) = load_code_ids rs ++ load_code_ids ts := by
  induction rs with
  | nil => rfl
  | cons r rs ih => cases r <;> simp [load_code_ids, ih]

theorem chain_lt_range' (s n : Nat) :
    List.Chain' (· < ·) (List.range' s n) := by
  induction n generalizing s with
  | zero => simp
  | succ k ih =>
      rw [List.range'_succ]
      cases k with
      | zero => simp
      | succ m =>
          rw [List.range'_succ]
          exact List.Chain'.cons (by omega)
            (by rw [← List.range'_succ]; exact ih (s + 1))

theorem jit_run_ids (args : List JitWriteArgs) :
    ∀ s : PerfMapJitState,
      load_code_ids (jit_run args s).records =
        load_code_ids s.records ++ List.range' (s.code_id + 1) args.length ∧
      (jit_run args s).code_id = s.code_id + args.length := by
  induction args with
  | nil => intro s; simp [jit_run, load_code_ids]
  | cons a args ih =>
      intro s
      obtain ⟨h1, h2⟩ := ih (perf_map_jit_write_entry a s)
      constructor
      · rw [jit_run, h1]
        unfold perf_map_jit_write_entry
        dsimp only
        rw [load_code_ids_append]
        simp only [load_code_ids, List.length_cons]
        rw [List.range'_succ]
        simp
      · rw [jit_run, h2]
        unfold perf_map_jit_write_entry
        dsimp only
        simp only [List.length_cons]
        omega

/-- C7: starting from the sink-init state (whose `code_id` counter is
0), after any sequence of `perf_map_jit_write_entry` emissions the
`code_id` values of the `CodeLoad` records in file order are exactly
`1, 2, ..., n` — each equals the count of prior `CodeLoad` emissions
plus 1 — and in particular they are strictly increasing.  Confirmed as
stated. -/
theorem c7_code_id_strictly_increasing (args : List JitWriteArgs) :
    perf_map_jit_init_state.code_id = 0 ∧
    load_code_ids (jit_run args perf_map_jit_init_state).records =
      List.range' 1 args.length ∧
    List.Chain' (· < ·)
      (load_code_ids (jit_run args perf_map_jit_init_state).records) := by
  obtain ⟨h1, _⟩ := jit_run_ids args perf_map_jit_init_state
  refine ⟨rfl, ?_, ?_⟩
  · rw [h1]
    rfl
  · rw [h1]
    exact chain_lt_range' 1 args.length

end Perf
